import Mathlib

/-!
Verification of the Dynamics-GP-LLM pipeline (src/LLM.py) against its
natural-language specification.

The Python module is a five-stage pipeline: a corpus loader
(get_table_clusters), an LLM-driven file selector (get_relevant_files), a
table extractor (get_tables_from_files), an LLM-driven table selector
(pick_relevant_tables), a table-info gatherer (grab_table_info), a SQL
synthesizer (generate_sql) and an orchestrator (run_full_process).

The embedding below models:
  - parsed JSON values as an inductive type `Json` (Python's json module is
    external library code; the act of parsing is abstracted as an input
    `Option Json` per file, and as an abstract parse function for LLM
    responses);
  - Python dicts produced by json.load as association lists with
    last-occurrence-wins lookup (json.loads keeps the last duplicate key);
  - Python exceptions (json.JSONDecodeError, KeyError, TypeError) as an
    `Except PipelineError` result;
  - the LLM client as a stub recording the three textual responses;
  - Python str.replace / str.strip on response texts as executable
    functions over `List Char`.

Modelling restrictions (each noted at its definition): Python's dynamic
typing lets some off-contract inputs raise TypeError where this embedding
returns a default (non-object corpus array elements in `descOfElem`,
non-string table names in `nameMatches`); theorems that depend on those
code paths carry well-formedness hypotheses restricting to the region
where the embedding is exactly faithful.
-/

namespace DynamicsGP

/-- Parsed JSON value, the result type of Python's json.load / json.loads.
Numbers are modelled as integers (the repository's schema data uses no
floats). Objects keep their fields as an ordered association list. -/
inductive Json where
  | null : Json
  | bool (b : Bool) : Json
  | num (n : Int) : Json
  | str (s : String) : Json
  | arr (elems : List Json) : Json
  | obj (fields : List (String × Json)) : Json

/-- Lookup of a key in a JSON object's field list. Python's json.loads
keeps the last occurrence of a duplicated key, so the lookup is
last-occurrence-wins. -/
def lookupField : List (String × Json) → String → Option Json
  | [], _ => none
  | (k', v) :: rest, k =>
    match lookupField rest k with
    | some v' => some v'
    | none => if k' == k then some v else none

/-- Optional field access on a JSON value: some v for an object that has
the key, none otherwise. -/
def getField : Json → String → Option Json
  | .obj fields, k => lookupField fields k
  | _, _ => none

/-- True exactly on JSON arrays (Python's isinstance(data, list)). -/
def Json.isArr : Json → Bool
  | .arr _ => true
  | _ => false

/-- True exactly on JSON objects (Python dicts). -/
def Json.isObj : Json → Bool
  | .obj _ => true
  | _ => false

/-- Errors of the pipeline, modelling the Python exceptions that escape
src/LLM.py: a json.JSONDecodeError raised by json.load on a corpus file
(carrying the file name), a json.JSONDecodeError raised by json.loads on
an LLM response, a KeyError from dict subscripting, and a TypeError from
subscripting / iterating a value of the wrong dynamic type. -/
inductive PipelineError where
  | corpusParseError (file : String) : PipelineError
  | parseError : PipelineError
  | keyError (k : String) : PipelineError
  | typeError : PipelineError

/-- Python subscript v[k] with a string key: returns the field of an
object, raises KeyError if the object lacks the key, raises TypeError if
the value is not a dict (list / str / int / ... are not subscriptable by
string). -/
def getItem (j : Json) (k : String) : Except PipelineError Json :=
  match j with
  | .obj fields =>
    match lookupField fields k with
    | some v => .ok v
    | none => .error (.keyError k)
  | _ => .error .typeError

/-- The normalized table dict built by the corpus loader, line 24-28 of
src/LLM.py: a dict with exactly the keys table_name, table_description,
columns, in that insertion order. -/
def mkTableInfo (name desc cols : Json) : Json :=
  .obj [("table_name", name), ("table_description", desc), ("columns", cols)]

/-- Processing of one element of a corpus file's top-level array, lines
22-29 of src/LLM.py: if the element carries a table_name key, build the
normalized table dict, defaulting table_description to the empty string
and columns to the empty array; otherwise skip the element.
The source's membership test is a dict-key test; a non-dict element would
raise TypeError in Python for non-iterable elements, which this embedding
does not model — theorems about off-contract elements carry an
all-objects hypothesis (the input contract of spec section 6 makes every
element an object). -/
def descOfElem : Json → Option Json
  | .obj fields =>
    match lookupField fields "table_name" with
    | some name =>
      some (mkTableInfo name
        ((lookupField fields "table_description").getD (.str ""))
        ((lookupField fields "columns").getD (.arr [])))
    | none => none
  | _ => none

/-- Tables extracted from one parsed corpus file, lines 21-29 of
src/LLM.py: the elements of a top-level array that carry table_name,
normalized; any non-array top-level value contributes no tables. -/
def tablesOfJson : Json → List Json
  | .arr elems => elems.filterMap descOfElem
  | _ => []

/-- The in-memory corpus: file name to list of normalized table dicts, in
insertion order (a Python dict). -/
abbrev Corpus := List (String × List Json)

/-- Python dict assignment d[k] = v: overwrite in place if the key exists
(keeping its original position), else append. -/
def corpusSet (data : Corpus) (k : String) (v : List Json) : Corpus :=
  match data with
  | [] => [(k, v)]
  | (k', v') :: rest =>
    if k' == k then (k, v) :: rest else (k', v') :: corpusSet rest k v

/-- Python dict lookup for the corpus: membership test plus subscript.
Keys are unique in a dict, so first match suffices. -/
def corpusLookup (data : Corpus) (f : String) : Option (List Json) :=
  match data with
  | [] => none
  | (k, v) :: rest => if k == f then some v else corpusLookup rest f

/-- Loop body of get_table_clusters, lines 15-29 of src/LLM.py: fold the
remaining (file name, parse result) pairs into the accumulated corpus.
A parse result of none models json.load raising JSONDecodeError, which
the source does not catch: the loop aborts and no corpus is returned. -/
def loadInto (acc : Corpus) : List (String × Option Json) → Except PipelineError Corpus
  | [] => .ok acc
  | (name, parsed) :: rest =>
    match parsed with
    | none => .error (.corpusParseError name)
    | some j => loadInto (corpusSet acc name (tablesOfJson j)) rest

/-- Corpus Loader, get_table_clusters of src/LLM.py. The directory walk
(glob + open + json.load) is abstracted as the list of (file name, parse
result) pairs in glob order; parse result none models a file whose
contents json.load rejects. -/
def get_table_clusters (files : List (String × Option Json)) : Except PipelineError Corpus :=
  loadInto [] files

/-- Python repr() of a JSON-derived value, as used by str() on containers.
String escaping inside repr is simplified (quotes inside strings are not
escaped); no theorem below depends on the container cases. -/
def pyRepr : Json → String
  | .null => "None"
  | .bool true => "True"
  | .bool false => "False"
  | .num n => toString n
  | .str s => "\x27" ++ s ++ "\x27"
  | .arr elems =>
    "[" ++ String.intercalate ", " (elems.attach.map (fun e => pyRepr e.1)) ++ "]"
  | .obj fields =>
    "\x7b" ++
      String.intercalate ", "
        (fields.attach.map (fun e => "\x27" ++ e.1.1 ++ "\x27: " ++ pyRepr e.1.2)) ++
      "\x7d"
termination_by j => sizeOf j
decreasing_by
  · have h := List.sizeOf_lt_of_mem e.2
    simp only [Json.arr.sizeOf_spec]
    omega
  · have h := List.sizeOf_lt_of_mem e.2
    obtain ⟨⟨k, v⟩, hv⟩ := e
    simp only [Prod.mk.sizeOf_spec] at h
    simp only [Json.obj.sizeOf_spec]
    omega

/-- Python str() of a JSON-derived value, as interpolated by the f-string
on line 79 of src/LLM.py: a string formats as itself, every other value
formats as its repr. -/
def pyStr : Json → String
  | .str s => s
  | j => pyRepr j

/-- Inner loop of get_tables_from_files, lines 78-80 of src/LLM.py: format
each table of one file as "name : description" via direct dict
subscripting (which can raise KeyError on a malformed table dict). -/
def tableStrings : List Json → Except PipelineError (List String)
  | [] => .ok []
  | t :: ts =>
    match getItem t "table_name" with
    | .error e => .error e
    | .ok n =>
      match getItem t "table_description" with
      | .error e => .error e
      | .ok d =>
        match tableStrings ts with
        | .error e => .error e
        | .ok rest => .ok ((pyStr n ++ " : " ++ pyStr d) :: rest)

/-- Table Extractor, get_tables_from_files of src/LLM.py, lines 74-81:
for each selected file present in the corpus, emit one "name :
description" string per table; selected files absent from the corpus are
skipped. -/
def get_tables_from_files : List String → Corpus → Except PipelineError (List String)
  | [], _ => .ok []
  | f :: fs, data =>
    match corpusLookup data f with
    | none => get_tables_from_files fs data
    | some ts =>
      match tableStrings ts with
      | .error e => .error e
      | .ok strs =>
        match get_tables_from_files fs data with
        | .error e => .error e
        | .ok rest => .ok (strs ++ rest)

/-- Whitespace as stripped by Python str.strip(): space, tab, newline,
carriage return, vertical tab, form feed (further Unicode whitespace is
not modelled; no corpus or response in the theorems below uses it). -/
def isPyWS (c : Char) : Bool :=
  c == ' ' || c == '\t' || c == '\n' || c == '\r' || c == '\x0b' || c == '\x0c'

/-- Python str.strip(): drop leading and trailing whitespace. -/
def pyStrip (l : List Char) : List Char :=
  ((l.reverse.dropWhile isPyWS).reverse).dropWhile isPyWS

/-- Fuel-driven worker for pyReplace. With fuel at least the length of the
text it scans the text left to right, deleting each non-overlapping
occurrence of the pattern, exactly as Python str.replace(pat, "") does. -/
def replFuel (pat : List Char) : Nat → List Char → List Char
  | _, [] => []
  | 0, l => l
  | fuel + 1, c :: cs =>
    if pat.isPrefixOf (c :: cs) then replFuel pat fuel (List.drop pat.length (c :: cs))
    else c :: replFuel pat fuel cs

/-- Python text.replace(pat, ""): delete every occurrence of pat, scanning
left to right with non-overlapping matches. -/
def pyReplace (pat : List Char) (s : List Char) : List Char :=
  replFuel pat s.length s

/-- Response cleanup shared by get_relevant_files (line 66) and
pick_relevant_tables (line 107) of src/LLM.py:
text.replace("```json", "").replace("```", "").strip(). -/
def cleanResp (s : List Char) : List Char :=
  pyStrip (pyReplace ("```".data) (pyReplace ("```json".data) s))

/-- Python substring test pat in s: true when pat occurs contiguously in
s (the empty pattern occurs in every string). -/
def listContains (pat : List Char) : List Char → Bool
  | [] => pat.isEmpty
  | c :: cs => pat.isPrefixOf (c :: cs) || listContains pat cs

/-- Python any(table_name in rt for rt in relevant_tables), line 122 of
src/LLM.py: short-circuit scan of the relevant-table entries; each
membership test is a substring test, which raises TypeError when the
table name is not a string (never reached when relevant_tables is
empty, because the generator is never advanced into the test). -/
def nameMatchesE (name : Json) : List String → Except PipelineError Bool
  | [] => .ok false
  | rt :: rest =>
    match name with
    | .str s => if listContains s.data rt.data then .ok true else nameMatchesE name rest
    | _ => .error .typeError

/-- Body of the inner loop of grab_table_info, lines 119-127 of
src/LLM.py: read the table name, test it against the relevant-table
entries, and on a match rebuild the full descriptor dict. -/
def grabOne (rts : List String) (t : Json) : Except PipelineError (Option Json) :=
  match getItem t "table_name" with
  | .error e => .error e
  | .ok name =>
    match nameMatchesE name rts with
    | .error e => .error e
    | .ok false => .ok none
    | .ok true =>
      match getItem t "table_description" with
      | .error e => .error e
      | .ok d =>
        match getItem t "columns" with
        | .error e => .error e
        | .ok c => .ok (some (mkTableInfo name d c))

/-- Inner loop of grab_table_info over the tables of one file. -/
def grabFile (rts : List String) : List Json → Except PipelineError (List Json)
  | [] => .ok []
  | t :: ts =>
    match grabOne rts t with
    | .error e => .error e
    | .ok o =>
      match grabFile rts ts with
      | .error e => .error e
      | .ok rest => .ok (match o with | some x => x :: rest | none => rest)

/-- Table Info Gatherer, grab_table_info of src/LLM.py, lines 114-128:
for each selected file present in the corpus, emit the full descriptor of
each table whose name is contained in at least one relevant-table entry;
absent files are skipped. -/
def grab_table_info (rts : List String) : List String → Corpus → Except PipelineError (List Json)
  | [], _ => .ok []
  | f :: fs, data =>
    match corpusLookup data f with
    | none => grab_table_info rts fs data
    | some ts =>
      match grabFile rts ts with
      | .error e => .error e
      | .ok infos =>
        match grab_table_info rts fs data with
        | .error e => .error e
        | .ok rest => .ok (infos ++ rest)

/-- SQL Synthesizer response handling, generate_sql of src/LLM.py, lines
130-147: the textual LLM response is returned verbatim — no JSON parsing,
no fence-stripping, no validation. -/
def generate_sql (responseText : List Char) : List Char :=
  responseText

/-- Conversion of a JSON value to a list of strings. Modelling
restriction: the source passes the selected value downstream without any
check and uses it dynamically; the claims under verification only concern
selections that are JSON arrays of strings, and the embedding rejects the
remaining shapes with a TypeError. -/
def strList : List Json → Option (List String)
  | [] => some []
  | .str s :: rest => (strList rest).map (s :: ·)
  | _ => none

/-- Array-of-strings view of a JSON value (see strList). -/
def asStringList : Json → Option (List String)
  | .arr elems => strList elems
  | _ => none

/-- Shared response processing of the File Selector (get_relevant_files,
lines 63-71) and the Table Selector (pick_relevant_tables, lines 104-112)
of src/LLM.py: clean the response text, parse it as JSON (json.loads is
external library code, abstracted as the jsonLoads parameter; none models
a raised JSONDecodeError), and subscript the result with the stage's key
(raising KeyError / TypeError as getItem does). -/
def stagePost (jsonLoads : List Char → Option Json) (key : String)
    (responseText : List Char) : Except PipelineError (List String) :=
  match jsonLoads (cleanResp responseText) with
  | none => .error .parseError
  | some j =>
    match getItem j key with
    | .error e => .error e
    | .ok v =>
      match asStringList v with
      | some l => .ok l
      | none => .error .typeError

/-- The external LLM predictor, abstracted as the three textual responses
it returns for the three chat calls of one run. -/
structure LLMStub where
  filesResponse : List Char
  tablesResponse : List Char
  sqlResponse : List Char

/-- The dictionary returned by run_full_process, lines 181-189 of
src/LLM.py: every intermediate artifact plus the final SQL text. -/
structure ResultBundle where
  all_data : Corpus
  file_names : List String
  relevant_files : List String
  tables : List String
  relevant_tables : List String
  columns_info : List Json
  final_sql_query : List Char

/-- Orchestrator, run_full_process of src/LLM.py, lines 149-189: load the
corpus, select files, extract tables, select tables, gather column info,
generate SQL, and bundle every artifact. The OpenAI client creation is a
pure constructor in the source and is absorbed into the stub. Any stage
error aborts the run with no partial results. -/
def run_full_process (jsonLoads : List Char → Option Json)
    (files : List (String × Option Json)) (stub : LLMStub) :
    Except PipelineError ResultBundle :=
  match get_table_clusters files with
  | .error e => .error e
  | .ok data =>
    let file_names := data.map Prod.fst
    match stagePost jsonLoads "relevant_files" stub.filesResponse with
    | .error e => .error e
    | .ok relevant_files =>
      match get_tables_from_files relevant_files data with
      | .error e => .error e
      | .ok tables =>
        match stagePost jsonLoads "relevant_tables" stub.tablesResponse with
        | .error e => .error e
        | .ok relevant_tables =>
          match grab_table_info relevant_tables relevant_files data with
          | .error e => .error e
          | .ok columns_info =>
            .ok ⟨data, file_names, relevant_files, tables, relevant_tables,
                 columns_info, generate_sql stub.sqlResponse⟩

/-- Specification-side formatting of one table descriptor, following the
words of spec section 4.3: the string "name : description". -/
def fmtDesc (t : Json) : String :=
  pyStr ((getField t "table_name").getD .null) ++ " : " ++
    pyStr ((getField t "table_description").getD .null)

/-- Specification-side matching policy of spec section 4.5: a descriptor
matches when its name is a substring of (or equal to) at least one
relevant-table entry. -/
def descMatches (rts : List String) (t : Json) : Bool :=
  match getField t "table_name" with
  | some (.str s) => rts.any (fun rt => listContains s.data rt.data)
  | _ => false

/-- Specification-side test of spec section 4.1: the element carries a
table_name field. -/
def specHasTN (e : Json) : Bool :=
  (getField e "table_name").isSome

/-- Specification-side descriptor of spec section 4.1: name taken from the
element, description defaulting to the empty string, columns defaulting
to the empty sequence. -/
def specDesc (e : Json) : Json :=
  mkTableInfo ((getField e "table_name").getD .null)
    ((getField e "table_description").getD (.str ""))
    ((getField e "columns").getD (.arr []))

/-- A table dict of the normalized shape the corpus loader produces: the
three keys table_name, table_description, columns in insertion order. -/
def isWFTable (t : Json) : Bool :=
  match t with
  | .obj [(k₁, _), (k₂, _), (k₃, _)] =>
    k₁ == "table_name" && k₂ == "table_description" && k₃ == "columns"
  | _ => false

/-- A normalized table dict whose name is a string (the data-model
invariant of spec section 3). -/
def isStrNamedTable (t : Json) : Bool :=
  match t with
  | .obj [(k₁, .str _), (k₂, _), (k₃, _)] =>
    k₁ == "table_name" && k₂ == "table_description" && k₃ == "columns"
  | _ => false

/-- Every table of every corpus entry is a normalized table dict. -/
def isWFCorpus (data : Corpus) : Bool :=
  data.all (fun p => p.2.all isWFTable)

/-- Every table of every corpus entry is normalized with a string name. -/
def isStrNamedCorpus (data : Corpus) : Bool :=
  data.all (fun p => p.2.all isStrNamedTable)

/-- The one corpus element of the end-to-end scenario of spec section 8. -/
def ordersElem : Json :=
  .obj [("table_name", .str "orders"), ("table_description", .str "sales orders"),
        ("columns", .arr [.str "id", .str "amount", .str "date"])]

/-- The normalized orders descriptor the loader builds from ordersElem. -/
def ordersTable : Json :=
  mkTableInfo (.str "orders") (.str "sales orders")
    (.arr [.str "id", .str "amount", .str "date"])

/-- The corpus directory of the end-to-end scenario: one file a.json whose
top-level array holds the orders element. -/
def scenarioFiles : List (String × Option Json) :=
  [("a.json", some (.arr [ordersElem]))]

/-- The stubbed LLM of the end-to-end scenario: the file selector answers
with a.json, the table selector with orders, and the SQL stage with the
literal query. -/
def scenarioStub : LLMStub :=
  ⟨"FILES-RESPONSE".data, "TABLES-RESPONSE".data, "SELECT * FROM orders;".data⟩

/-- The JSON parses of the two stubbed selector responses. -/
def scenarioJL : List Char → Option Json := fun s =>
  if s == "FILES-RESPONSE".data then
    some (.obj [("relevant_files", .arr [.str "a.json"])])
  else if s == "TABLES-RESPONSE".data then
    some (.obj [("relevant_tables", .arr [.str "orders"])])
  else none

/-- The full result bundle the orchestrator must return in the end-to-end
scenario. -/
def scenarioBundle : ResultBundle :=
  ⟨[("a.json", [ordersTable])], ["a.json"], ["a.json"],
   ["orders : sales orders"], ["orders"], [ordersTable],
   "SELECT * FROM orders;".data⟩

/-! Lemmas about pyReplace: the fuel used by the worker is irrelevant as
soon as it covers the text, giving the three step laws of Python
str.replace (empty text, match at the head, no match at the head). -/

theorem replFuel_irrel {pat : List Char} (hp : pat ≠ []) :
    ∀ f₁ : Nat, ∀ s : List Char, ∀ f₂ : Nat, s.length ≤ f₁ → s.length ≤ f₂ →
      replFuel pat f₁ s = replFuel pat f₂ s := by
  intro f₁
  induction f₁ with
  | zero =>
    intro s f₂ h₁ _
    have hs : s = [] := List.eq_nil_of_length_eq_zero (Nat.le_zero.mp h₁)
    subst hs
    cases f₂ <;> rfl
  | succ n ih =>
    intro s f₂ h₁ h₂
    cases s with
    | nil => cases f₂ <;> rfl
    | cons c cs =>
      cases f₂ with
      | zero => simp at h₂
      | succ m =>
        have hlen : 0 < pat.length := List.length_pos.mpr hp
        by_cases hpre : pat.isPrefixOf (c :: cs) = true
        · simp only [replFuel, hpre, if_true]
          apply ih
          · simp only [List.length_drop, List.length_cons]
            simp only [List.length_cons] at h₁
            omega
          · simp only [List.length_drop, List.length_cons]
            simp only [List.length_cons] at h₂
            omega
        · simp only [Bool.not_eq_true] at hpre
          simp only [replFuel, hpre, Bool.false_eq_true, if_false]
          simp only [List.length_cons] at h₁ h₂
          rw [ih cs m (by omega) (by omega)]

theorem pyReplace_cons_pos {pat : List Char} (hp : pat ≠ []) {c : Char} {cs : List Char}
    (hpre : pat.isPrefixOf (c :: cs) = true) :
    pyReplace pat (c :: cs) = pyReplace pat (List.drop pat.length (c :: cs)) := by
  have hlen : 0 < pat.length := List.length_pos.mpr hp
  simp only [pyReplace, List.length_cons, replFuel, hpre, if_true]
  exact replFuel_irrel hp cs.length _ _
    (by simp only [List.length_drop, List.length_cons]; omega)
    (Nat.le_refl _)

theorem pyReplace_cons_neg {pat : List Char} {c : Char} {cs : List Char}
    (hpre : pat.isPrefixOf (c :: cs) = false) :
    pyReplace pat (c :: cs) = c :: pyReplace pat cs := by
  simp only [pyReplace, List.length_cons, replFuel, hpre, Bool.false_eq_true, if_false]

theorem isPrefixOf_cons_false {pat : List Char} (hp : pat ≠ []) {c : Char}
    (hc : c ∉ pat) (l : List Char) : pat.isPrefixOf (c :: l) = false := by
  cases pat with
  | nil => exact absurd rfl hp
  | cons p ps =>
    have hne : p ≠ c := fun h => hc (h ▸ List.mem_cons_self p ps)
    have hbe : (p == c) = false := beq_eq_false_iff_ne.mpr hne
    simp [List.isPrefixOf, hbe]

theorem pyReplace_cons_notMem {pat : List Char} (hp : pat ≠ []) {c : Char}
    (hc : c ∉ pat) (l : List Char) :
    pyReplace pat (c :: l) = c :: pyReplace pat l :=
  pyReplace_cons_neg (isPrefixOf_cons_false hp hc l)

theorem pyReplace_pat_append {pat : List Char} (hp : pat ≠ []) (rest : List Char) :
    pyReplace pat (pat ++ rest) = pyReplace pat rest := by
  cases pat with
  | nil => exact absurd rfl hp
  | cons p ps =>
    have hpre : (p :: ps).isPrefixOf (p :: (ps ++ rest)) = true := by
      have h := List.prefix_append (p :: ps) rest
      simpa only [List.isPrefixOf_iff_prefix, List.cons_append] using h
    calc pyReplace (p :: ps) ((p :: ps) ++ rest)
        = pyReplace (p :: ps) (List.drop (p :: ps).length (p :: (ps ++ rest))) :=
          pyReplace_cons_pos hp hpre
      _ = pyReplace (p :: ps) rest := congrArg _ (List.drop_left (p :: ps) rest)

theorem pyReplace_append {pat : List Char} (hp : pat ≠ []) {c₀ : Char} (hc : c₀ ∉ pat)
    (t : List Char) : ∀ s : List Char,
    pyReplace pat (s ++ c₀ :: t) = pyReplace pat s ++ pyReplace pat (c₀ :: t) := by
  intro s
  generalize hn : s.length = n
  induction n using Nat.strong_induction_on generalizing s with
  | _ n ih =>
    cases s with
    | nil => simp [pyReplace, replFuel]
    | cons c s' =>
      simp only [List.cons_append]
      cases hpre : pat.isPrefixOf (c :: (s' ++ c₀ :: t)) with
      | true =>
        have hle : pat.length ≤ s'.length + 1 := by
          by_contra hlt
          push_neg at hlt
          have hpre' : pat <+: ((c :: s') ++ (c₀ :: t)) := by
            simp only [List.cons_append]
            simpa only [List.isPrefixOf_iff_prefix] using hpre
          have hidx : s'.length + 1 < pat.length := hlt
          have hgp := hpre'.getElem (n := s'.length + 1) hidx
          have hin : s'.length + 1 < ((c :: s') ++ (c₀ :: t)).length := by simp
          have hrhs : ((c :: s') ++ (c₀ :: t))[s'.length + 1] = c₀ := by
            rw [List.getElem_append_right (by simp)]
            simp
          exact hc (by rw [← hrhs, ← hgp]; exact List.getElem_mem hidx)
        have hpre₁p : pat <+: (c :: s') := by
          have hpre' : pat <+: ((c :: s') ++ (c₀ :: t)) := by
            simp only [List.cons_append]
            simpa only [List.isPrefixOf_iff_prefix] using hpre
          have heq : pat = ((c :: s') ++ (c₀ :: t)).take pat.length :=
            List.prefix_iff_eq_take.mp hpre'
          have heq2 : pat = (c :: s').take pat.length := by
            conv_lhs => rw [heq]
            exact List.take_append_of_le_length (by simpa using hle)
          exact heq2 ▸ List.take_prefix _ _
        have hpre₁ : pat.isPrefixOf (c :: s') = true := by
          simpa only [List.isPrefixOf_iff_prefix] using hpre₁p
        rw [pyReplace_cons_pos hp hpre, pyReplace_cons_pos hp hpre₁]
        rw [show (c :: (s' ++ c₀ :: t)) = (c :: s') ++ (c₀ :: t) from rfl,
            List.drop_append_of_le_length (by simpa using hle)]
        have hD : ((c :: s').drop pat.length).length < n := by
          rw [← hn]
          simp only [List.length_drop, List.length_cons]
          have : 0 < pat.length := List.length_pos.mpr hp
          omega
        exact ih _ hD _ rfl
      | false =>
        have hpre₁ : pat.isPrefixOf (c :: s') = false := by
          cases hq : pat.isPrefixOf (c :: s') with
          | false => rfl
          | true =>
            have hP : pat <+: (c :: s') := by
              simpa only [List.isPrefixOf_iff_prefix] using hq
            have hP2 : pat <+: ((c :: s') ++ (c₀ :: t)) := hP.trans (List.prefix_append _ _)
            have : pat.isPrefixOf ((c :: s') ++ (c₀ :: t)) = true := by
              simpa only [List.isPrefixOf_iff_prefix] using hP2
            rw [show (c :: s') ++ (c₀ :: t) = c :: (s' ++ c₀ :: t) from rfl] at this
            rw [this] at hpre
            exact absurd hpre (by simp)
        rw [pyReplace_cons_neg hpre, pyReplace_cons_neg hpre₁]
        simp only [List.cons_append, List.cons.injEq, true_and]
        exact ih s'.length (by simp [← hn]) s' rfl

theorem pyStrip_wrap (X : List Char) :
    pyStrip ('\n' :: (X ++ ['\n'])) = pyStrip X := by
  have hws : isPyWS '\n' = true := by decide
  unfold pyStrip
  rw [show ('\n' :: (X ++ ['\n'])).reverse = '\n' :: (X.reverse ++ ['\n']) by
    simp]
  rw [List.dropWhile_cons_of_pos hws]
  rw [List.dropWhile_append]
  cases hE : (X.reverse.dropWhile isPyWS).isEmpty with
  | true =>
    have h0 : X.reverse.dropWhile isPyWS = [] := List.isEmpty_iff.mp hE
    simp [h0, hws]
  | false =>
    have h0 : X.reverse.dropWhile isPyWS ≠ [] := by
      intro h; rw [h] at hE; simp at hE
    simp only [hE, Bool.false_eq_true, if_false]
    rw [show (X.reverse.dropWhile isPyWS ++ ['\n']).reverse
        = '\n' :: (X.reverse.dropWhile isPyWS).reverse by simp]
    rw [List.dropWhile_cons_of_pos hws]

/-- C3 (corrected): the claim that fence-stripping removes the markers
only from the start and end of the response is false: the source's
replace-based cleanup deletes every occurrence. In the text a```b the
marker occurs neither at the start nor at the end, yet the cleanup
removes it and changes the text. -/
theorem fence_marker_removed_in_interior :
    cleanResp ("a```b".data) = "ab".data
    ∧ ("```".data : List Char).isPrefixOf ("a```b".data) = false
    ∧ ("```".data : List Char).isSuffixOf ("a```b".data) = false
    ∧ ("a```b".data : List Char) ≠ "ab".data := by
  refine ⟨by decide, by decide, by decide, by decide⟩

/-- C3 (amended): the cleanup of the File Selector and Table Selector
stages removes every occurrence of the markers (three backticks with or
without a json tag) anywhere in the response and strips surrounding
whitespace; consequently a response wrapped in a json code fence parses
to the identical result as the same response with no fences, for any
parse function. -/
theorem fence_wrap_parse_invariant : ∀ resp : List Char,
    cleanResp ("```json\n".data ++ resp ++ "\n```".data) = cleanResp resp
    ∧ ∀ parse : List Char → Option Json,
        parse (cleanResp ("```json\n".data ++ resp ++ "\n```".data))
          = parse (cleanResp resp) := by
  intro resp
  have hne1 : ("```json".data : List Char) ≠ [] := by decide
  have hne2 : ("```".data : List Char) ≠ [] := by decide
  have hmem1 : '\n' ∉ ("```json".data : List Char) := by decide
  have hmem2 : '\n' ∉ ("```".data : List Char) := by decide
  have key : cleanResp ("```json\n".data ++ resp ++ "\n```".data) = cleanResp resp := by
    rw [show ("```json\n".data : List Char) = "```json".data ++ ['\n'] by decide,
        show ("\n```".data : List Char) = '\n' :: "```".data by decide]
    unfold cleanResp
    rw [show ("```json".data ++ ['\n']) ++ resp ++ ('\n' :: "```".data)
        = "```json".data ++ ('\n' :: (resp ++ '\n' :: "```".data)) by simp]
    rw [pyReplace_pat_append hne1]
    rw [pyReplace_cons_notMem hne1 hmem1]
    rw [pyReplace_append hne1 hmem1 ("```".data) resp]
    rw [show pyReplace ("```json".data) ('\n' :: "```".data) = '\n' :: "```".data by decide]
    rw [pyReplace_cons_notMem hne2 hmem2]
    rw [pyReplace_append hne2 hmem2 ("```".data) (pyReplace ("```json".data) resp)]
    rw [show pyReplace ("```".data) ('\n' :: "```".data) = ['\n'] by decide]
    rw [pyStrip_wrap]
  exact ⟨key, fun parse => by rw [key]⟩

/-- C2 (corrected, counterexample): a corpus file that fails to parse as
JSON is fatal, not an empty table list: json.load raises inside the loop
and get_table_clusters returns nothing, not even for the remaining
files. -/
theorem corpus_parse_failure_is_fatal :
    get_table_clusters [("bad.json", none), ("good.json", some (.arr []))]
      = .error (.corpusParseError "bad.json") := rfl

/-- C2 (amended): a file whose top-level JSON value is not a sequence
produces an empty table list for that file non-fatally and loading
continues with the remaining files, while a file that fails to parse as
JSON raises the parse error and aborts the loader with no corpus. -/
theorem corpus_loader_error_behavior :
    ∀ (name : String) (j : Json) (rest : List (String × Option Json)),
      get_table_clusters ((name, none) :: rest) = .error (.corpusParseError name)
      ∧ (j.isArr = false →
          get_table_clusters ((name, some j) :: rest) = loadInto [(name, [])] rest) := by
  intro name j rest
  refine ⟨rfl, fun hj => ?_⟩
  show loadInto [] ((name, some j) :: rest) = _
  have hT : tablesOfJson j = [] := by
    cases j <;> simp_all [tablesOfJson, Json.isArr]
  simp only [loadInto, hT]
  rfl

/-- Witness for corpus_loader_error_behavior: at a concrete non-sequence
file the hypothesis holds, the loader maps the file to the empty table
list and continues with the remaining file. -/
theorem corpus_loader_error_behavior_witness :
    Json.isArr (.str "x") = false
    ∧ get_table_clusters [("a.json", some (.str "x")), ("b.json", some (.arr []))]
        = loadInto [("a.json", [])] [("b.json", some (.arr []))]
    ∧ loadInto [("a.json", [])] [("b.json", some (.arr []))]
        = .ok [("a.json", []), ("b.json", [])] :=
  ⟨rfl,
   (corpus_loader_error_behavior "a.json" (.str "x")
      [("b.json", some (.arr []))]).2 rfl,
   rfl⟩

/-- C8 (confirmed): the SQL Synthesizer returns the raw response text
verbatim; in particular a fenced response keeps its fences, unlike what
the selector stages' cleanup would do to the same text. -/
theorem generate_sql_verbatim :
    (∀ resp : List Char, generate_sql resp = resp)
    ∧ generate_sql ("```sql\nSELECT 1;\n```".data) = "```sql\nSELECT 1;\n```".data
    ∧ cleanResp ("```sql\nSELECT 1;\n```".data) ≠ "```sql\nSELECT 1;\n```".data := by
  refine ⟨fun _ => rfl, rfl, by decide⟩

/-! Lemmas about the normalized table dicts the loader produces and the
functions that consume them. -/

theorem isWFTable_shape {t : Json} (h : isWFTable t = true) :
    ∃ n d c, t = mkTableInfo n d c := by
  unfold isWFTable at h
  split at h
  next k₁ v₁ k₂ v₂ k₃ v₃ =>
    simp only [Bool.and_eq_true, beq_iff_eq] at h
    obtain ⟨⟨h₁, h₂⟩, h₃⟩ := h
    subst h₁; subst h₂; subst h₃
    exact ⟨v₁, v₂, v₃, rfl⟩
  next => exact absurd h (by simp)

theorem isStrNamedTable_shape {t : Json} (h : isStrNamedTable t = true) :
    ∃ s d c, t = mkTableInfo (.str s) d c := by
  unfold isStrNamedTable at h
  split at h
  next k₁ s k₂ v₂ k₃ v₃ =>
    simp only [Bool.and_eq_true, beq_iff_eq] at h
    obtain ⟨⟨h₁, h₂⟩, h₃⟩ := h
    subst h₁; subst h₂; subst h₃
    exact ⟨s, v₂, v₃, rfl⟩
  next => exact absurd h (by simp)

theorem isStrNamedTable_isWF {t : Json} (h : isStrNamedTable t = true) :
    isWFTable t = true := by
  obtain ⟨s, d, c, rfl⟩ := isStrNamedTable_shape h
  rfl

theorem getItem_name (n d c : Json) :
    getItem (mkTableInfo n d c) "table_name" = .ok n := rfl

theorem getItem_desc (n d c : Json) :
    getItem (mkTableInfo n d c) "table_description" = .ok d := rfl

theorem getItem_cols (n d c : Json) :
    getItem (mkTableInfo n d c) "columns" = .ok c := rfl

theorem fmtDesc_mk (n d c : Json) :
    fmtDesc (mkTableInfo n d c) = pyStr n ++ " : " ++ pyStr d := rfl

theorem tableStrings_eq {ts : List Json} (h : ts.all isWFTable = true) :
    tableStrings ts = .ok (ts.map fmtDesc) := by
  induction ts with
  | nil => rfl
  | cons t ts ih =>
    simp only [List.all_cons, Bool.and_eq_true] at h
    obtain ⟨ht, hts⟩ := h
    obtain ⟨n, d, c, rfl⟩ := isWFTable_shape ht
    simp only [tableStrings, getItem_name, getItem_desc, ih hts, List.map_cons, fmtDesc_mk]

theorem corpusLookup_all {p : Json → Bool} {data : Corpus}
    (h : data.all (fun q => q.2.all p) = true) {f : String} {ts : List Json}
    (hf : corpusLookup data f = some ts) : ts.all p = true := by
  induction data with
  | nil => simp [corpusLookup] at hf
  | cons q rest ih =>
    obtain ⟨k, v⟩ := q
    simp only [List.all_cons, Bool.and_eq_true] at h
    obtain ⟨hq, hrest⟩ := h
    simp only [corpusLookup] at hf
    split at hf
    · rw [Option.some.injEq] at hf
      subst hf
      exact hq
    · exact ih hrest hf

theorem gtff_eq {data : Corpus} (h : isWFCorpus data = true) :
    ∀ fs : List String, get_tables_from_files fs data
      = .ok (fs.flatMap (fun f => ((corpusLookup data f).getD []).map fmtDesc)) := by
  intro fs
  induction fs with
  | nil => rfl
  | cons f fs ih =>
    cases hf : corpusLookup data f with
    | none => simp [get_tables_from_files, hf, ih]
    | some ts =>
      have hts : ts.all isWFTable = true := corpusLookup_all h hf
      simp only [get_tables_from_files, hf, tableStrings_eq hts, ih]
      simp [hf]

theorem nameMatchesE_str (s : String) : ∀ rts : List String,
    nameMatchesE (.str s) rts
      = .ok (rts.any (fun rt => listContains s.data rt.data)) := by
  intro rts
  induction rts with
  | nil => rfl
  | cons rt rts ih =>
    simp only [nameMatchesE, List.any_cons]
    by_cases hc : listContains s.data rt.data = true
    · simp [hc]
    · simp only [Bool.not_eq_true] at hc
      simp [hc, ih]

theorem descMatches_mk (s : String) (d c : Json) (rts : List String) :
    descMatches rts (mkTableInfo (.str s) d c)
      = rts.any (fun rt => listContains s.data rt.data) := rfl

theorem grabOne_str (rts : List String) (s : String) (d c : Json) :
    grabOne rts (mkTableInfo (.str s) d c)
      = .ok (if descMatches rts (mkTableInfo (.str s) d c)
             then some (mkTableInfo (.str s) d c) else none) := by
  simp only [grabOne, getItem_name, getItem_desc, getItem_cols, nameMatchesE_str,
    descMatches_mk]
  by_cases h : (rts.any fun rt => listContains s.data rt.data) = true
  · simp [h]
  · simp only [Bool.not_eq_true] at h
    simp [h]

theorem grabFile_eq {rts : List String} {ts : List Json}
    (h : ts.all isStrNamedTable = true) :
    grabFile rts ts = .ok (ts.filter (descMatches rts)) := by
  induction ts with
  | nil => rfl
  | cons t ts ih =>
    simp only [List.all_cons, Bool.and_eq_true] at h
    obtain ⟨ht, hts⟩ := h
    obtain ⟨s, d, c, rfl⟩ := isStrNamedTable_shape ht
    simp only [grabFile, grabOne_str, ih hts]
    by_cases hm : descMatches rts (mkTableInfo (.str s) d c) = true
    · simp [hm]
    · simp only [Bool.not_eq_true] at hm
      simp [hm]

theorem grab_eq {data : Corpus} (h : isStrNamedCorpus data = true) (rts : List String) :
    ∀ fs : List String, grab_table_info rts fs data
      = .ok (fs.flatMap (fun f => ((corpusLookup data f).getD []).filter (descMatches rts))) := by
  intro fs
  induction fs with
  | nil => rfl
  | cons f fs ih =>
    cases hf : corpusLookup data f with
    | none => simp [grab_table_info, hf, ih]
    | some ts =>
      have hts : ts.all isStrNamedTable = true := corpusLookup_all h hf
      simp only [grab_table_info, hf, grabFile_eq hts, ih]
      simp [hf]

theorem descOfElem_WF {e t : Json} (h : descOfElem e = some t) : isWFTable t = true := by
  unfold descOfElem at h
  split at h
  · split at h
    · rw [Option.some.injEq] at h
      subst h
      rfl
    · simp at h
  · simp at h

theorem tablesOfJson_WF (j : Json) : (tablesOfJson j).all isWFTable = true := by
  cases j with
  | arr elems =>
    simp only [tablesOfJson]
    rw [List.all_eq_true]
    intro t ht
    rw [List.mem_filterMap] at ht
    obtain ⟨e, _, he⟩ := ht
    exact descOfElem_WF he
  | null => rfl
  | bool b => rfl
  | num n => rfl
  | str s => rfl
  | obj fields => rfl

theorem corpusSet_all {p : Json → Bool} {data : Corpus}
    (h : data.all (fun q => q.2.all p) = true) {k : String} {v : List Json}
    (hv : v.all p = true) :
    (corpusSet data k v).all (fun q => q.2.all p) = true := by
  induction data with
  | nil => simp [corpusSet, hv]
  | cons q rest ih =>
    obtain ⟨k', v'⟩ := q
    simp only [List.all_cons, Bool.and_eq_true] at h
    obtain ⟨hq, hrest⟩ := h
    simp only [corpusSet]
    by_cases hk : (k' == k) = true
    · simp only [hk, if_true, List.all_cons, Bool.and_eq_true]
      exact ⟨hv, List.all_eq_true.mpr (fun x hx => (List.all_eq_true.mp hrest) x hx)⟩
    · simp only [Bool.not_eq_true] at hk
      simp only [hk, Bool.false_eq_true, if_false, List.all_cons, Bool.and_eq_true]
      exact ⟨hq, ih hrest⟩

theorem loadInto_WF : ∀ (files : List (String × Option Json)) (acc data : Corpus),
    isWFCorpus acc = true → loadInto acc files = .ok data → isWFCorpus data = true := by
  intro files
  induction files with
  | nil =>
    intro acc data hacc h
    simp only [loadInto] at h
    rw [Except.ok.injEq] at h
    subst h
    exact hacc
  | cons fp rest ih =>
    intro acc data hacc h
    obtain ⟨name, parsed⟩ := fp
    cases parsed with
    | none => simp [loadInto] at h
    | some j =>
      simp only [loadInto] at h
      exact ih _ _ (corpusSet_all hacc (tablesOfJson_WF j)) h

theorem get_table_clusters_WF {files : List (String × Option Json)} {data : Corpus}
    (h : get_table_clusters files = .ok data) : isWFCorpus data = true :=
  loadInto_WF files [] data rfl h

theorem nameMatchesE_cases (name : Json) (rts : List String) :
    (∃ b, nameMatchesE name rts = .ok b) ∨ nameMatchesE name rts = .error .typeError := by
  cases name with
  | str s => exact .inl ⟨_, nameMatchesE_str s rts⟩
  | null => cases rts with | nil => exact .inl ⟨false, rfl⟩ | cons => exact .inr rfl
  | bool b => cases rts with | nil => exact .inl ⟨false, rfl⟩ | cons => exact .inr rfl
  | num n => cases rts with | nil => exact .inl ⟨false, rfl⟩ | cons => exact .inr rfl
  | arr elems => cases rts with | nil => exact .inl ⟨false, rfl⟩ | cons => exact .inr rfl
  | obj fields => cases rts with | nil => exact .inl ⟨false, rfl⟩ | cons => exact .inr rfl

theorem grabOne_cases (rts : List String) {t : Json} (h : isWFTable t = true) :
    (∃ o, grabOne rts t = .ok o) ∨ grabOne rts t = .error .typeError := by
  obtain ⟨n, d, c, rfl⟩ := isWFTable_shape h
  simp only [grabOne, getItem_name, getItem_desc, getItem_cols]
  rcases nameMatchesE_cases n rts with ⟨b, hb⟩ | hb
  · rw [hb]
    cases b
    · exact .inl ⟨none, rfl⟩
    · exact .inl ⟨some _, rfl⟩
  · rw [hb]
    exact .inr rfl

theorem grabFile_cases (rts : List String) {ts : List Json}
    (h : ts.all isWFTable = true) :
    (∃ out, grabFile rts ts = .ok out) ∨ grabFile rts ts = .error .typeError := by
  induction ts with
  | nil => exact .inl ⟨[], rfl⟩
  | cons t ts ih =>
    simp only [List.all_cons, Bool.and_eq_true] at h
    obtain ⟨ht, hts⟩ := h
    simp only [grabFile]
    rcases grabOne_cases rts ht with ⟨o, ho⟩ | ho
    · rw [ho]
      rcases ih hts with ⟨out, hout⟩ | hout
      · rw [hout]
        exact .inl ⟨_, rfl⟩
      · rw [hout]
        exact .inr rfl
    · rw [ho]
      exact .inr rfl

theorem grab_table_info_cases {data : Corpus} (h : isWFCorpus data = true)
    (rts : List String) : ∀ fs : List String,
    (∃ out, grab_table_info rts fs data = .ok out)
      ∨ grab_table_info rts fs data = .error .typeError := by
  intro fs
  induction fs with
  | nil => exact .inl ⟨[], rfl⟩
  | cons f fs ih =>
    cases hf : corpusLookup data f with
    | none =>
      simp only [grab_table_info, hf]
      exact ih
    | some ts =>
      simp only [grab_table_info, hf]
      rcases grabFile_cases rts (corpusLookup_all h hf) with ⟨out, hout⟩ | hout
      · rw [hout]
        rcases ih with ⟨r, hr⟩ | hr
        · rw [hr]
          exact .inl ⟨_, rfl⟩
        · rw [hr]
          exact .inr rfl
      · rw [hout]
        exact .inr rfl

theorem flatMap_replicate {α β : Type} (n : Nat) (f : α) (g : α → List β) :
    (List.replicate n f).flatMap g = (List.replicate n (g f)).flatten := by
  induction n with
  | zero => rfl
  | succ m ih => simp [List.replicate_succ, ih]

theorem isObj_shape {e : Json} (h : e.isObj = true) : ∃ fields, e = .obj fields := by
  cases e with
  | obj fields => exact ⟨fields, rfl⟩
  | null => simp [Json.isObj] at h
  | bool b => simp [Json.isObj] at h
  | num n => simp [Json.isObj] at h
  | str s => simp [Json.isObj] at h
  | arr elems => simp [Json.isObj] at h

theorem tablesOfJson_filter_spec : ∀ elems : List Json, elems.all Json.isObj = true →
    tablesOfJson (.arr elems) = (elems.filter specHasTN).map specDesc := by
  intro elems
  induction elems with
  | nil => intro _; rfl
  | cons e elems ih =>
    intro hobj
    simp only [List.all_cons, Bool.and_eq_true] at hobj
    obtain ⟨he, helems⟩ := hobj
    obtain ⟨fields, rfl⟩ := isObj_shape he
    have htail := ih helems
    simp only [tablesOfJson] at htail ⊢
    cases hl : lookupField fields "table_name" with
    | none =>
      have h2 : specHasTN (.obj fields) = false := by simp [specHasTN, getField, hl]
      simp only [List.filterMap_cons, descOfElem, hl]
      rw [List.filter_cons_of_neg (by simp [h2]), htail]
    | some name =>
      have h2 : specHasTN (.obj fields) = true := by simp [specHasTN, getField, hl]
      simp only [List.filterMap_cons, descOfElem, hl]
      rw [List.filter_cons_of_pos (by simp [h2]), List.map_cons, htail]
      congr 1
      simp [specDesc, getField, hl, mkTableInfo]

/-- C1 (confirmed): over any corpus whose table names are strings, the
Table Info Gatherer emits, in file order then corpus order, exactly the
descriptors of the selected files present in the corpus whose name is
contained in at least one relevant-table entry; in particular the entry
orders_2024 matches the descriptor named orders. -/
theorem grab_table_info_substring_match :
    ∀ (rts fs : List String) (data : Corpus), isStrNamedCorpus data = true →
      grab_table_info rts fs data
        = .ok (fs.flatMap (fun f => ((corpusLookup data f).getD []).filter (descMatches rts)))
      ∧ grab_table_info ["orders_2024"] ["a.json"] [("a.json", [ordersTable])]
          = .ok [ordersTable] :=
  fun rts fs data h => ⟨grab_eq h rts fs, rfl⟩

/-- Witness for grab_table_info_substring_match at the orders corpus with
the decorated relevant-table entry orders_2024. -/
theorem grab_table_info_substring_match_witness :
    isStrNamedCorpus [("a.json", [ordersTable])] = true
    ∧ grab_table_info ["orders_2024"] ["a.json"] [("a.json", [ordersTable])]
        = .ok [ordersTable] :=
  ⟨rfl, (grab_table_info_substring_match ["orders_2024"] ["a.json"]
     [("a.json", [ordersTable])] rfl).2⟩

/-- C4 (confirmed): the Table Extractor emits the string
"name : description" for each descriptor of each selected file present in
the corpus, in file-selection order then corpus order; files absent from
the corpus contribute nothing and the result is still a success. -/
theorem get_tables_from_files_characterization :
    ∀ (fs : List String) (data : Corpus), isWFCorpus data = true →
      get_tables_from_files fs data
        = .ok (fs.flatMap (fun f => ((corpusLookup data f).getD []).map fmtDesc)) :=
  fun fs data h => gtff_eq h fs

/-- Witness for get_tables_from_files_characterization: a selection with
one present and one absent file yields exactly the present file's strings
without error. -/
theorem get_tables_from_files_characterization_witness :
    isWFCorpus [("a.json", [ordersTable])] = true
    ∧ get_tables_from_files ["a.json", "missing.json"] [("a.json", [ordersTable])]
        = .ok ["orders : sales orders"] :=
  ⟨rfl, (get_tables_from_files_characterization ["a.json", "missing.json"]
     [("a.json", [ordersTable])] rfl).trans rfl⟩

/-- C5 (confirmed): over a well-formed array of objects the loader builds
a descriptor exactly for the elements carrying table_name, with the
spec's defaults for the missing optional fields; an array all of whose
elements lack table_name yields the empty table list. -/
theorem corpus_loader_element_selection :
    ∀ elems : List Json, elems.all Json.isObj = true →
      tablesOfJson (.arr elems) = (elems.filter specHasTN).map specDesc
      ∧ (elems.all (fun e => !(specHasTN e)) = true → tablesOfJson (.arr elems) = []) := by
  intro elems hobj
  have main := tablesOfJson_filter_spec elems hobj
  refine ⟨main, fun hnone => ?_⟩
  rw [main]
  have hnil : elems.filter specHasTN = [] := by
    rw [List.filter_eq_nil_iff]
    intro a ha
    have hb := (List.all_eq_true.mp hnone) a ha
    simp only [Bool.not_eq_true'] at hb
    simp [hb]
  rw [hnil]
  rfl

/-- Witness for corpus_loader_element_selection: two object elements with
no table_name field produce the empty table list. -/
theorem corpus_loader_element_selection_witness :
    ([Json.obj [("x", Json.null)], Json.obj [("table_description", Json.str "d")]].all
        Json.isObj = true)
    ∧ ([Json.obj [("x", Json.null)], Json.obj [("table_description", Json.str "d")]].all
        (fun e => !(specHasTN e)) = true)
    ∧ tablesOfJson (.arr [Json.obj [("x", Json.null)],
        Json.obj [("table_description", Json.str "d")]]) = [] :=
  ⟨rfl, rfl,
   (corpus_loader_element_selection
      [Json.obj [("x", Json.null)], Json.obj [("table_description", Json.str "d")]]
      rfl).2 rfl⟩

/-- C9 (confirmed): every corpus the loader returns consists of
normalized three-field table dicts, so the direct field accesses of the
Table Extractor always succeed and the Table Info Gatherer can never fail
with a missing-key error (its only possible failure is the TypeError of a
non-string name in the substring test). -/
theorem loader_invariant_field_access_total :
    ∀ (files : List (String × Option Json)) (data : Corpus),
      get_table_clusters files = .ok data →
      isWFCorpus data = true
      ∧ (∀ fs : List String, ∃ out, get_tables_from_files fs data = .ok out)
      ∧ (∀ (rts fs : List String) (k : String),
          grab_table_info rts fs data ≠ .error (.keyError k)) := by
  intro files data h
  have hWF : isWFCorpus data = true := get_table_clusters_WF h
  refine ⟨hWF, fun fs => ⟨_, gtff_eq hWF fs⟩, fun rts fs k hcontra => ?_⟩
  rcases grab_table_info_cases hWF rts fs with ⟨out, hout⟩ | hout
  · rw [hout] at hcontra
    exact absurd hcontra (by simp)
  · rw [hout] at hcontra
    exact absurd hcontra (by simp)

/-- Witness for loader_invariant_field_access_total at the one-file orders
corpus. -/
theorem loader_invariant_field_access_total_witness :
    get_table_clusters scenarioFiles = .ok [("a.json", [ordersTable])]
    ∧ isWFCorpus [("a.json", [ordersTable])] = true
    ∧ (∃ out, get_tables_from_files ["a.json"] [("a.json", [ordersTable])] = .ok out)
    ∧ grab_table_info ["orders"] ["a.json"] [("a.json", [ordersTable])]
        ≠ .error (.keyError "table_description") :=
  ⟨rfl,
   (loader_invariant_field_access_total scenarioFiles [("a.json", [ordersTable])] rfl).1,
   (loader_invariant_field_access_total scenarioFiles [("a.json", [ordersTable])] rfl).2.1
     ["a.json"],
   (loader_invariant_field_access_total scenarioFiles [("a.json", [ordersTable])] rfl).2.2
     ["orders"] ["a.json"] "table_description"⟩

/-- C10 (confirmed): neither the Table Extractor nor the Table Info
Gatherer deduplicates the selected-file list: a file selected n times
contributes its table strings and its matching descriptors n times. -/
theorem selection_lists_not_deduplicated :
    ∀ (n : Nat) (f : String) (data : Corpus) (ts : List Json) (rts : List String),
      isStrNamedCorpus data = true → corpusLookup data f = some ts →
      get_tables_from_files (List.replicate n f) data
        = .ok ((List.replicate n (ts.map fmtDesc)).flatten)
      ∧ grab_table_info rts (List.replicate n f) data
        = .ok ((List.replicate n (ts.filter (descMatches rts))).flatten) := by
  intro n f data ts rts hstr hf
  have hWF : isWFCorpus data = true := by
    unfold isWFCorpus
    unfold isStrNamedCorpus at hstr
    rw [List.all_eq_true] at hstr ⊢
    intro q hq
    rw [List.all_eq_true]
    intro t ht
    exact isStrNamedTable_isWF (List.all_eq_true.mp (hstr q hq) t ht)
  constructor
  · rw [gtff_eq hWF, flatMap_replicate]
    simp [hf]
  · rw [grab_eq hstr rts, flatMap_replicate]
    simp [hf]

/-- Witness for selection_lists_not_deduplicated: selecting a.json twice
doubles both the table strings and the gathered descriptors. -/
theorem selection_lists_not_deduplicated_witness :
    isStrNamedCorpus [("a.json", [ordersTable])] = true
    ∧ corpusLookup [("a.json", [ordersTable])] "a.json" = some [ordersTable]
    ∧ get_tables_from_files ["a.json", "a.json"] [("a.json", [ordersTable])]
        = .ok ["orders : sales orders", "orders : sales orders"]
    ∧ grab_table_info ["orders"] ["a.json", "a.json"] [("a.json", [ordersTable])]
        = .ok [ordersTable, ordersTable] :=
  ⟨rfl, rfl,
   (selection_lists_not_deduplicated 2 "a.json" [("a.json", [ordersTable])]
      [ordersTable] ["orders"] rfl rfl).1.trans rfl,
   (selection_lists_not_deduplicated 2 "a.json" [("a.json", [ordersTable])]
      [ordersTable] ["orders"] rfl rfl).2.trans rfl⟩

/-- C6 (confirmed): a run of the orchestrator that completes without
error returns the bundle of every intermediate artifact, each one being
exactly the output of its stage; and in the section-8 end-to-end scenario
the bundle holds exactly the stubbed SQL string and a columns_info list
with the one orders descriptor verbatim. -/
theorem run_full_process_bundle_complete :
    (∀ (jl : List Char → Option Json) (files : List (String × Option Json))
        (stub : LLMStub) (b : ResultBundle),
      run_full_process jl files stub = .ok b →
      get_table_clusters files = .ok b.all_data
      ∧ b.file_names = b.all_data.map Prod.fst
      ∧ stagePost jl "relevant_files" stub.filesResponse = .ok b.relevant_files
      ∧ get_tables_from_files b.relevant_files b.all_data = .ok b.tables
      ∧ stagePost jl "relevant_tables" stub.tablesResponse = .ok b.relevant_tables
      ∧ grab_table_info b.relevant_tables b.relevant_files b.all_data = .ok b.columns_info
      ∧ b.final_sql_query = generate_sql stub.sqlResponse)
    ∧ run_full_process scenarioJL scenarioFiles scenarioStub = .ok scenarioBundle := by
  constructor
  · intro jl files stub b h
    unfold run_full_process at h
    cases hload : get_table_clusters files with
    | error e => simp [hload] at h
    | ok data =>
      simp only [hload] at h
      cases hs1 : stagePost jl "relevant_files" stub.filesResponse with
      | error e => simp [hs1] at h
      | ok rf =>
        simp only [hs1] at h
        cases hgt : get_tables_from_files rf data with
        | error e => simp [hgt] at h
        | ok tbls =>
          simp only [hgt] at h
          cases hs2 : stagePost jl "relevant_tables" stub.tablesResponse with
          | error e => simp [hs2] at h
          | ok rt =>
            simp only [hs2] at h
            cases hgr : grab_table_info rt rf data with
            | error e => simp [hgr] at h
            | ok cols =>
              simp only [hgr] at h
              rw [Except.ok.injEq] at h
              subst h
              exact ⟨rfl, rfl, rfl, hgt, rfl, hgr, rfl⟩
  · rfl

/-- Witness for run_full_process_bundle_complete: the scenario run
succeeds and its bundle carries the stubbed SQL string and the verbatim
orders descriptor. -/
theorem run_full_process_bundle_complete_witness :
    run_full_process scenarioJL scenarioFiles scenarioStub = .ok scenarioBundle
    ∧ get_table_clusters scenarioFiles = .ok scenarioBundle.all_data
    ∧ scenarioBundle.final_sql_query = generate_sql scenarioStub.sqlResponse
    ∧ scenarioBundle.final_sql_query = "SELECT * FROM orders;".data
    ∧ scenarioBundle.columns_info = [ordersTable] :=
  ⟨run_full_process_bundle_complete.2,
   (run_full_process_bundle_complete.1 scenarioJL scenarioFiles scenarioStub scenarioBundle
      run_full_process_bundle_complete.2).1,
   (run_full_process_bundle_complete.1 scenarioJL scenarioFiles scenarioStub scenarioBundle
      run_full_process_bundle_complete.2).2.2.2.2.2.2,
   rfl, rfl⟩

/-- C7 (confirmed): in the File Selector, a response that is not valid
JSON after cleanup fails with the parse error and a parsed response
lacking the relevant_files key fails with the missing-key error; in both
cases the same error value surfaces unmodified from the orchestrator,
which returns no partial result; likewise for relevant_tables in the
Table Selector once the earlier stages succeeded. -/
theorem selector_errors_propagate :
    ∀ (jl : List Char → Option Json) (files : List (String × Option Json))
      (data : Corpus) (stub : LLMStub),
      get_table_clusters files = .ok data →
      ((jl (cleanResp stub.filesResponse) = none →
          stagePost jl "relevant_files" stub.filesResponse = .error .parseError
          ∧ run_full_process jl files stub = .error .parseError)
       ∧ (∀ fields, jl (cleanResp stub.filesResponse) = some (.obj fields) →
            lookupField fields "relevant_files" = none →
            stagePost jl "relevant_files" stub.filesResponse
              = .error (.keyError "relevant_files")
            ∧ run_full_process jl files stub = .error (.keyError "relevant_files"))
       ∧ (∀ rf tbls, stagePost jl "relevant_files" stub.filesResponse = .ok rf →
            get_tables_from_files rf data = .ok tbls →
            ((jl (cleanResp stub.tablesResponse) = none →
                stagePost jl "relevant_tables" stub.tablesResponse = .error .parseError
                ∧ run_full_process jl files stub = .error .parseError)
             ∧ (∀ fields, jl (cleanResp stub.tablesResponse) = some (.obj fields) →
                  lookupField fields "relevant_tables" = none →
                  stagePost jl "relevant_tables" stub.tablesResponse
                    = .error (.keyError "relevant_tables")
                  ∧ run_full_process jl files stub
                      = .error (.keyError "relevant_tables"))))) := by
  intro jl files data stub hload
  refine ⟨?_, ?_, ?_⟩
  · intro h1
    have hstage : stagePost jl "relevant_files" stub.filesResponse = .error .parseError := by
      unfold stagePost
      rw [h1]
    exact ⟨hstage, by unfold run_full_process; simp only [hload, hstage]⟩
  · intro fields h1 h2
    have hstage : stagePost jl "relevant_files" stub.filesResponse
        = .error (.keyError "relevant_files") := by
      unfold stagePost
      rw [h1]
      simp only [getItem, h2]
    exact ⟨hstage, by unfold run_full_process; simp only [hload, hstage]⟩
  · intro rf tbls hs1 hgt
    refine ⟨?_, ?_⟩
    · intro h1
      have hstage : stagePost jl "relevant_tables" stub.tablesResponse
          = .error .parseError := by
        unfold stagePost
        rw [h1]
      exact ⟨hstage, by unfold run_full_process; simp only [hload, hs1, hgt, hstage]⟩
    · intro fields h1 h2
      have hstage : stagePost jl "relevant_tables" stub.tablesResponse
          = .error (.keyError "relevant_tables") := by
        unfold stagePost
        rw [h1]
        simp only [getItem, h2]
      exact ⟨hstage, by unfold run_full_process; simp only [hload, hs1, hgt, hstage]⟩

/-- Witness for selector_errors_propagate: a parse-failing response and a
key-lacking response each abort a concrete run with the corresponding
error and no bundle. -/
theorem selector_errors_propagate_witness :
    run_full_process (fun _ => none) [("a.json", some (.arr []))]
      ⟨"R".data, "R".data, "S".data⟩ = .error .parseError
    ∧ run_full_process (fun _ => some (.obj [])) [("a.json", some (.arr []))]
        ⟨"R".data, "R".data, "S".data⟩ = .error (.keyError "relevant_files") :=
  ⟨((selector_errors_propagate (fun _ => none) [("a.json", some (.arr []))]
      [("a.json", [])] ⟨"R".data, "R".data, "S".data⟩ rfl).1 rfl).2,
   ((selector_errors_propagate (fun _ => some (.obj [])) [("a.json", some (.arr []))]
      [("a.json", [])] ⟨"R".data, "R".data, "S".data⟩ rfl).2.1 [] rfl rfl).2⟩

end DynamicsGP
